import Mathlib

/-!
Shallow embedding of the metadata-driven call pipeline of
`crates/pop-cli/src/commands/call/parachain.rs`.

The interactive prompt layer (the `cli` trait object) is modelled as a
deterministic response oracle: each kind of prompt is a function from the
prompt's label (and auxiliary display data) to the operator's response,
with `none` standing for a cancelled prompt.  External collaborators from
the `pop_parachains` crate (network, metadata decoding, signing) are
modelled as an `Env` of oracle functions.  Every modelled operation
returns, besides its `Except`-result, the list of user-visible
interaction events it produced, in order.
-/

namespace PopCli

/-- One node of the recursive argument-descriptor tree (`pop_parachains::Arg`,
only declared outside the supplied sources; its five fields are exactly the
ones read by `parachain.rs`: `name`, `type_input`, `optional`, `variant`,
`options`). -/
inductive Arg where
  | mk (name : String) (type_input : String) (optional : Bool) (variant : Bool)
       (options : List Arg)

def Arg.name : Arg → String
  | .mk n _ _ _ _ => n

def Arg.type_input : Arg → String
  | .mk _ t _ _ _ => t

def Arg.optional : Arg → Bool
  | .mk _ _ o _ _ => o

def Arg.variant : Arg → Bool
  | .mk _ _ _ v _ => v

def Arg.options : Arg → List Arg
  | .mk _ _ _ _ opts => opts

/-- A user-visible interaction event, recorded in order of occurrence. -/
inductive Event where
  | intro (msg : String)
  | info (msg : String)
  | outro (msg : String)
  | outroCancel (msg : String)
  | inputPrompt (label : String) (placeholder : String) (response : String)
  | selectPrompt (label : String) (chosen : Nat)
  | confirmPrompt (label : String) (response : Bool)
  | submitAttempt (suri : String)
deriving DecidableEq

/-- The interactive prompt oracle (the `cli` trait): responses as a function
of the prompt shown.  `none` models the operator cancelling the prompt. -/
structure Cli where
  /-- `confirm(label).initial_value(b).interact()`; second argument is the initial value. -/
  confirm : String → Bool → Option Bool
  /-- `input(label).placeholder(p).default_input(d).interact()`. -/
  input : String → String → String → Option String
  /-- `select(label).item(..).interact()`: given label and the (name, hint)
  items, returns the index of the chosen item. -/
  select : String → List (String × String) → Option Nat

/-- Result-with-trace: the `Except` result of an operation together with the
events it displayed (events are kept also when the operation fails). -/
abbrev M (α : Type) : Type := Except String α × List Event

/-- Run a confirm prompt, recording the event. -/
def askConfirm (cli : Cli) (label : String) (initial : Bool) : M Bool :=
  match cli.confirm label initial with
  | none => (Except.error "canceled", [])
  | some b => (Except.ok b, [Event.confirmPrompt label b])

/-- Run an input prompt, recording the event. -/
def askInput (cli : Cli) (label placeholder default_ : String) : M String :=
  match cli.input label placeholder default_ with
  | none => (Except.error "canceled", [])
  | some s => (Except.ok s, [Event.inputPrompt label placeholder s])

/-- Run a select prompt, recording the event. -/
def askSelect (cli : Cli) (label : String) (items : List (String × String)) : M Nat :=
  match cli.select label items with
  | none => (Except.error "canceled", [])
  | some i => (Except.ok i, [Event.selectPrompt label i])

/-- `prompt_for_primitive`: free-text prompt for a scalar value, placeholder
seeded with the type label (parachain.rs lines 295-301). -/
def prompt_for_primitive (cli : Cli) (arg : Arg) : M String :=
  askInput cli ("Enter the value for the parameter: " ++ arg.name)
    ("Type required: " ++ arg.type_input) ""

mutual

/-- `prompt_argument` (parachain.rs lines 257-279): optional arguments are
guarded by a confirm prompt; declining yields the literal `None`, accepting
wraps the non-optional resolution as `Some(..)`. -/
def prompt_argument (cli : Cli) (arg : Arg) : M String :=
  if arg.optional then
    match askConfirm cli
        ("Do you want to provide a value for the optional parameter: " ++ arg.name ++ "?")
        false with
    | (Except.error e, tr) => (Except.error e, tr)
    | (Except.ok c, tr) =>
      if c then
        match prompt_argument_value cli arg with
        | (Except.error e, tr2) => (Except.error e, tr ++ tr2)
        | (Except.ok v, tr2) => (Except.ok ("Some(" ++ v ++ ")"), tr ++ tr2)
      else (Except.ok "None", tr)
  else
    prompt_argument_value cli arg
termination_by (sizeOf arg, 3)

/-- `prompt_argument_value` (parachain.rs lines 281-293): dispatch on the
three shapes of a descriptor. -/
def prompt_argument_value (cli : Cli) (arg : Arg) : M String :=
  if arg.options.isEmpty then prompt_for_primitive cli arg
  else if arg.variant then prompt_for_variant cli arg
  else prompt_for_composite cli arg
termination_by (sizeOf arg, 2)

/-- `prompt_for_variant` (parachain.rs lines 303-326): select an alternative;
an alternative with fields is rendered `Name(f1, f2, ...)`, a bare one as
`Name`. -/
def prompt_for_variant (cli : Cli) (arg : Arg) : M String :=
  match askSelect cli ("Select the value for the parameter: " ++ arg.name)
      (arg.options.map fun o => (o.name, o.type_input)) with
  | (Except.error e, tr) => (Except.error e, tr)
  | (Except.ok idx, tr) =>
    match h : arg.options.get? idx with
    | none => (Except.error "canceled", tr)
    | some selected =>
      if selected.options.isEmpty then (Except.ok selected.name, tr)
      else
        match resolve_fields cli selected.options with
        | (Except.error e, tr2) => (Except.error e, tr ++ tr2)
        | (Except.ok vs, tr2) =>
          (Except.ok (selected.name ++ "(" ++ String.intercalate ", " vs ++ ")"), tr ++ tr2)
termination_by (sizeOf arg, 1)
decreasing_by
  have hmem : selected ∈ arg.options := List.get?_mem h
  have h1 : sizeOf selected < sizeOf arg.options := List.sizeOf_lt_of_mem hmem
  have h2 : sizeOf selected.options < sizeOf selected := by
    cases selected with
    | mk n t o v opts => first | (simp [Arg.options]; omega) | simp [Arg.options]
  have h3 : sizeOf arg.options < sizeOf arg := by
    cases arg with
    | mk n t o v opts => first | (simp [Arg.options]; omega) | simp [Arg.options]
  exact Prod.Lex.left _ _ (by omega)

/-- `prompt_for_composite` (parachain.rs lines 328-339): resolve every field
in declared order and join with `, ` (no enclosing wrapper). -/
def prompt_for_composite (cli : Cli) (arg : Arg) : M String :=
  match resolve_fields cli arg.options with
  | (Except.error e, tr) => (Except.error e, tr)
  | (Except.ok vs, tr) => (Except.ok (String.intercalate ", " vs), tr)
termination_by (sizeOf arg, 1)
decreasing_by
  have h3 : sizeOf arg.options < sizeOf arg := by
    cases arg with
    | mk n t o v opts => first | (simp [Arg.options]; omega) | simp [Arg.options]
  exact Prod.Lex.left _ _ (by omega)

/-- The field loops of `prompt_for_variant` / `prompt_for_composite`:
resolve each field by `prompt_argument`, in order, collecting the values. -/
def resolve_fields (cli : Cli) (l : List Arg) : M (List String) :=
  match l with
  | [] => (Except.ok [], [])
  | a :: rest =>
    match prompt_argument cli a with
    | (Except.error e, tr) => (Except.error e, tr)
    | (Except.ok v, tr) =>
      match resolve_fields cli rest with
      | (Except.error e, tr2) => (Except.error e, tr ++ tr2)
      | (Except.ok vs, tr2) => (Except.ok (v :: vs), tr ++ tr2)
termination_by (sizeOf l, 0)
decreasing_by
  all_goals exact Prod.Lex.left _ _ (by simp only [List.cons.sizeOf_spec]; omega)

end

/-- An extrinsic descriptor as read by `configure`: name, documentation lines
(`docs.concat()` is applied for the selection hint), and the raw argument
fields handed to `process_prompt_arguments`.  Raw fields are opaque tokens. -/
structure Extrinsic where
  name : String
  docs : List String
  fields : List String
deriving DecidableEq

/-- A pallet entry of the decoded chain metadata: name, documentation and
extrinsics, as read by `configure`. -/
structure Pallet where
  name : String
  docs : String
  extrinsics : List Extrinsic
deriving DecidableEq

/-- Opaque connection handle (`OnlineClient<SubstrateConfig>`). -/
abbrev Api := Nat

/-- Opaque dynamically-typed call object (`DynamicPayload`). -/
abbrev Tx := Nat

/-- Oracle for the external collaborators of the `pop_parachains` crate:
network access, metadata decoding, call construction, encoding and
submission.  Each is a pure function chosen by the test environment. -/
structure Env where
  parse_url : String → Except String String
  set_up_api : String → Except String Api
  parse_chain_metadata : Api → Except String (List Pallet)
  find_pallet_by_name : Api → String → Except String Pallet
  process_prompt_arguments : Api → String → Except String Arg
  construct_extrinsic : Api → String → String → List String → Except String Tx
  encode_call_data : Api → Tx → Except String String
  sign_and_submit_extrinsic : Api → Tx → String → Except String String

def DEFAULT_URL : String := "ws://localhost:9944/"

def DEFAULT_URI : String := "//Alice"

/-- The mutable command state (`CallParachainCommand` struct fields). -/
structure CallParachainCommand where
  pallet : Option String
  extrinsic : Option String
  args : List String
  url : String
  suri : String
deriving DecidableEq

/-- Rust `Debug` rendering of an `Option<String>`, as used in the
cancellation message of `send_extrinsic`. -/
def debugOptionString : Option String → String
  | none => "None"
  | some s => "Some(\"" ++ s ++ "\")"

/-- `CallParachainCommand::display` (parachain.rs lines 142-156). -/
def display (cmd : CallParachainCommand) : String :=
  let full1 := "pop call parachain"
  let full2 :=
    match cmd.pallet with
    | some pallet => full1 ++ (" --pallet " ++ pallet)
    | none => full1
  let full3 :=
    match cmd.extrinsic with
    | some ext => full2 ++ (" --extrinsic " ++ ext)
    | none => full2
  let full4 :=
    if cmd.args.isEmpty then full3
    else
      full3 ++ (" --args " ++ String.intercalate ", " (cmd.args.map fun a => "\"" ++ a ++ "\""))
  full4 ++ (" --url " ++ cmd.url ++ " --suri " ++ cmd.suri)

/-- `CallParachainCommand::reset_for_new_call` (parachain.rs lines 240-244). -/
def reset_for_new_call (cmd : CallParachainCommand) : CallParachainCommand :=
  { cmd with pallet := none, extrinsic := none }

/-- `display_message` (parachain.rs lines 247-254). -/
def display_message (message : String) (success : Bool) : M Unit :=
  if success then (Except.ok (), [Event.outro message])
  else (Except.ok (), [Event.outroCancel message])

/-- The argument loop of `configure` (parachain.rs lines 129-136): each raw
field is turned into prompt metadata by `process_prompt_arguments` and then
resolved by `prompt_argument`. -/
def resolve_args (cli : Cli) (env : Env) (api : Api) : List String → M (List String)
  | [] => (Except.ok [], [])
  | f :: rest =>
    match env.process_prompt_arguments api f with
    | Except.error e => (Except.error e, [])
    | Except.ok argMeta =>
      match prompt_argument cli argMeta with
      | (Except.error e, tr) => (Except.error e, tr)
      | (Except.ok v, tr) =>
        match resolve_args cli env api rest with
        | (Except.error e, tr2) => (Except.error e, tr ++ tr2)
        | (Except.ok vs, tr2) => (Except.ok (v :: vs), tr ++ tr2)

/-- The url-resolution step of `configure` (parachain.rs lines 83-92): prompt
for a url only on a first run whose url still equals the default, then parse
it. -/
def resolve_url (cli : Cli) (env : Env) (repeat_ : Bool) (cmd : CallParachainCommand) :
    M CallParachainCommand :=
  if repeat_ = false ∧ cmd.url = DEFAULT_URL then
    match askInput cli "Which chain would you like to interact with?"
        "wss://rpc1.paseo.popnetwork.xyz" "wss://rpc1.paseo.popnetwork.xyz" with
    | (Except.error e, tr) => (Except.error e, tr)
    | (Except.ok u, tr) =>
      match env.parse_url u with
      | Except.error e => (Except.error e, tr)
      | Except.ok parsed => (Except.ok { cmd with url := parsed }, tr)
  else (Except.ok cmd, [])

/-- The pallet-resolution step of `configure` (parachain.rs lines 104-115):
a pre-supplied pallet name is looked up, a missing one is selected
interactively and recorded back onto the command state. -/
def resolve_pallet (cli : Cli) (env : Env) (api : Api) (pallets : List Pallet)
    (cmd : CallParachainCommand) : M (Pallet × CallParachainCommand) :=
  match cmd.pallet with
  | some pallet_name =>
    match env.find_pallet_by_name api pallet_name with
    | Except.error e => (Except.error e, [])
    | Except.ok p => (Except.ok (p, cmd), [])
  | none =>
    match askSelect cli "Select the pallet to call:"
        (pallets.map fun p => (p.name, p.docs)) with
    | (Except.error e, tr) => (Except.error e, tr)
    | (Except.ok idx, tr) =>
      match pallets.get? idx with
      | none => (Except.error "canceled", tr)
      | some p => (Except.ok (p, { cmd with pallet := some p.name }), tr)

/-- `CallParachainCommand::configure` (parachain.rs lines 67-140).  Returns
the updated command state together with the connection handle.  `repeat_` is
the `repeat` parameter of the source. -/
def configure (cli : Cli) (env : Env) (repeat_ : Bool) (cmd : CallParachainCommand) :
    M (CallParachainCommand × Api) :=
  let introTr : List Event := if repeat_ then [] else [Event.intro "Call a parachain"]
  match resolve_url cli env repeat_ cmd with
  | (Except.error e, tr) => (Except.error e, introTr ++ tr)
  | (Except.ok cmd1, trUrl) =>
    match env.set_up_api cmd1.url with
    | Except.error e => (Except.error e, introTr ++ trUrl)
    | Except.ok api =>
      match env.parse_chain_metadata api with
      | Except.error e =>
        (Except.error ("Unable to fetch the chain metadata: " ++ e), introTr ++ trUrl)
      | Except.ok pallets =>
        match resolve_pallet cli env api pallets cmd1 with
        | (Except.error e, tr) => (Except.error e, introTr ++ trUrl ++ tr)
        | (Except.ok (pallet, cmd2), trPallet) =>
          match askSelect cli "Select the extrinsic to call:"
              (pallet.extrinsics.map fun ex => (ex.name, String.join ex.docs)) with
          | (Except.error e, tr) => (Except.error e, introTr ++ trUrl ++ trPallet ++ tr)
          | (Except.ok idx, trExtSel) =>
            match pallet.extrinsics.get? idx with
            | none => (Except.error "canceled", introTr ++ trUrl ++ trPallet ++ trExtSel)
            | some ext =>
              let cmd3 := { cmd2 with extrinsic := some ext.name }
              match resolve_args cli env api ext.fields with
              | (Except.error e, trArgs) =>
                (Except.error e, introTr ++ trUrl ++ trPallet ++ trExtSel ++ trArgs)
              | (Except.ok vs, trArgs) =>
                let cmd4 := { cmd3 with args := vs }
                (Except.ok (cmd4, api),
                 introTr ++ trUrl ++ trPallet ++ trExtSel ++ trArgs
                   ++ [Event.info (display cmd4)])

/-- `CallParachainCommand::prepare_extrinsic` (parachain.rs lines 158-184). -/
def prepare_extrinsic (env : Env) (api : Api) (cmd : CallParachainCommand) : M Tx :=
  match cmd.extrinsic with
  | none => (Except.error "Please specify the extrinsic.", [])
  | some ext =>
    match cmd.pallet with
    | none => (Except.error "Please specify the pallet.", [])
    | some pal =>
      match env.construct_extrinsic api pal ext cmd.args with
      | Except.error e => (Except.error ("Error parsing the arguments: " ++ e), [])
      | Except.ok tx =>
        match env.encode_call_data api tx with
        | Except.error e => (Except.error e, [])
        | Except.ok enc => (Except.ok tx, [Event.info ("Encoded call data: " ++ enc)])

/-- The signer step of `send_extrinsic` (parachain.rs lines 193-199): prompt
for a signer only when the current one is empty. -/
def resolve_suri (cli : Cli) (cmd0 : CallParachainCommand) : M CallParachainCommand :=
  if cmd0.suri = "" then
    match askInput cli "Who is going to sign the extrinsic:" "//Alice" "//Alice" with
    | (Except.error e, tr) => (Except.error e, tr)
    | (Except.ok s, tr) => (Except.ok { cmd0 with suri := s }, tr)
  else (Except.ok cmd0, [])

/-- `CallParachainCommand::send_extrinsic` (parachain.rs lines 186-239).
The repeat loop is bounded by `fuel`, consumed only when the operator asks
for another call; all claim theorems hold for every fuel value. -/
def send_extrinsic (cli : Cli) (env : Env) (fuel : Nat) (cmd0 : CallParachainCommand)
    (api : Api) (tx : Tx) (prompt_to_repeat_call : Bool) : M CallParachainCommand :=
  match resolve_suri cli cmd0 with
  | (Except.error e, tr) => (Except.error e, tr)
  | (Except.ok cmd, trSuri) =>
    let trInfo := trSuri ++ [Event.info (display cmd)]
    match askConfirm cli "Do you want to submit the call?" true with
    | (Except.error e, trC) => (Except.error e, trInfo ++ trC)
    | (Except.ok c, trC) =>
      if c = false then
        (Except.ok cmd,
         trInfo ++ trC ++
           [Event.outroCancel ("Extrinsic " ++ debugOptionString cmd.extrinsic
             ++ " was not submitted. Operation canceled by the user.")])
      else
        let trSub := trInfo ++ trC ++ [Event.submitAttempt cmd.suri]
        match env.sign_and_submit_extrinsic api tx cmd.suri with
        | Except.error e => (Except.error ("ERROR: " ++ e), trSub)
        | Except.ok result =>
          let trHash := trSub ++ [Event.outro ("Extrinsic submitted with hash: " ++ result)]
          if prompt_to_repeat_call = false then
            (Except.ok cmd, trHash ++ [Event.outro "Call completed successfully!"])
          else
            match askConfirm cli "Do you want to perform another call to the same chain?"
                false with
            | (Except.error e, trR) => (Except.error e, trHash ++ trR)
            | (Except.ok r, trR) =>
              if r then
                if fuel = 0 then (Except.error "recursion limit reached", trHash ++ trR)
                else
                  let cmdR := reset_for_new_call cmd
                  match configure cli env true cmdR with
                  | (Except.error e, trCfg) => (Except.error e, trHash ++ trR ++ trCfg)
                  | (Except.ok (cmd3, _api2), trCfg) =>
                    match prepare_extrinsic env api cmd3 with
                    | (Except.error e, trP) =>
                      (Except.error e, trHash ++ trR ++ trCfg ++ trP)
                    | (Except.ok tx2, trP) =>
                      match send_extrinsic cli env (fuel - 1) cmd3 api tx2
                          prompt_to_repeat_call with
                      | (res, trRec) => (res, trHash ++ trR ++ trCfg ++ trP ++ trRec)
              else
                (Except.ok cmd, trHash ++ trR ++ [Event.outro "Parachain calling complete."])
termination_by fuel
decreasing_by omega

/-- `CallParachainCommand::execute` (parachain.rs lines 38-65): the session
entry point.  Each stage error is displayed via `display_message` and then
swallowed, the entry point returning `Ok(())`. -/
def execute (cli : Cli) (env : Env) (fuel : Nat) (cmd : CallParachainCommand) : M Unit :=
  let prompt_to_repeat_call := cmd.extrinsic.isNone
  match configure cli env false cmd with
  | (Except.error e, tr) => (Except.ok (), tr ++ [Event.outroCancel e])
  | (Except.ok (cmd2, api), tr) =>
    match prepare_extrinsic env api cmd2 with
    | (Except.error e, tr2) => (Except.ok (), tr ++ tr2 ++ [Event.outroCancel e])
    | (Except.ok tx, tr2) =>
      match send_extrinsic cli env fuel cmd2 api tx prompt_to_repeat_call with
      | (Except.error e, tr3) => (Except.ok (), tr ++ tr2 ++ tr3 ++ [Event.outroCancel e])
      | (Except.ok _, tr3) => (Except.ok (), tr ++ tr2 ++ tr3)

/-- The display/audit line format as worded by the spec: segments for the
module, operation and argument list, each omitted when absent/empty, around
the fixed `<tool> call parachain ... --url <target> --suri <signer>` frame. -/
def spec_display (tool : String) (module_ operation : Option String)
    (args : List String) (target signer : String) : String :=
  tool ++ " call parachain"
    ++ (match module_ with
        | none => ""
        | some m => " --pallet " ++ m)
    ++ (match operation with
        | none => ""
        | some o => " --extrinsic " ++ o)
    ++ (if args = [] then ""
        else " --args " ++ String.intercalate ", " (args.map fun a => "\"" ++ a ++ "\""))
    ++ " --url " ++ target ++ " --suri " ++ signer

/-- The value a descriptor resolves to under a fixed oracle (meaningful when
resolution succeeds). -/
def resolvedValue (cli : Cli) (a : Arg) : String :=
  match (prompt_argument cli a).1 with
  | Except.ok v => v
  | Except.error _ => ""

/-- Events that the argument resolver can produce: prompts whose labels are
seeded with a parameter name. -/
def argEvent : Event → Prop
  | Event.confirmPrompt lbl _ =>
    ∃ s, lbl = "Do you want to provide a value for the optional parameter: " ++ s
  | Event.selectPrompt lbl _ => ∃ s, lbl = "Select the value for the parameter: " ++ s
  | Event.inputPrompt lbl _ _ => ∃ s, lbl = "Enter the value for the parameter: " ++ s
  | _ => False

/-- Events that `configure` can produce. -/
def configEvent (e : Event) : Prop :=
  argEvent e ∨
  (match e with
   | Event.intro _ => True
   | Event.info _ => True
   | Event.inputPrompt lbl _ _ => lbl = "Which chain would you like to interact with?"
   | Event.selectPrompt lbl _ =>
     lbl = "Select the pallet to call:" ∨ lbl = "Select the extrinsic to call:"
   | _ => False)

/-- Two command states that agree on everything except the positional
argument list. -/
def EqExceptArgs (c d : CallParachainCommand) : Prop :=
  c.pallet = d.pallet ∧ c.extrinsic = d.extrinsic ∧ c.url = d.url ∧ c.suri = d.suri

/-- The `args` field of the command state of a successful `configure` run. -/
def okArgs (m : M (CallParachainCommand × Api)) : Option (List String) :=
  match m.1 with
  | Except.ok (c, _) => some c.args
  | Except.error _ => none

/-- Test oracle answering every confirm with its initial value, every input
with `99` and every selection with the first item. -/
def cliEcho : Cli :=
  { confirm := fun _ b => some b
    input := fun _ _ _ => some "99"
    select := fun _ _ => some 0 }

/-- Test oracle accepting every confirm prompt. -/
def cliYes : Cli :=
  { confirm := fun _ _ => some true
    input := fun _ _ _ => some "99"
    select := fun _ _ => some 0 }

/-- Test oracle declining every confirm prompt. -/
def cliNo : Cli :=
  { confirm := fun _ _ => some false
    input := fun _ _ _ => some "99"
    select := fun _ _ => some 0 }

/-- A primitive argument descriptor. -/
def argAmount : Arg := Arg.mk "amount" "u128" false false []

/-- An optional primitive argument descriptor. -/
def argTip : Arg := Arg.mk "tip" "Option<u128>" true false []

/-- A variant alternative carrying two primitive fields. -/
def argFoo : Arg :=
  Arg.mk "Foo" "Foo" false false
    [Arg.mk "a" "u32" false false [], Arg.mk "b" "bool" false false []]

/-- A variant descriptor with alternatives `Foo` (two fields) and `Bar`. -/
def argChoice : Arg :=
  Arg.mk "x" "MyEnum" false true [argFoo, Arg.mk "Bar" "Bar" false false []]

/-- A composite descriptor with three primitive fields `a`, `b`, `c`. -/
def argPoint : Arg :=
  Arg.mk "point" "Point" false false
    [Arg.mk "a" "u8" false false [], Arg.mk "b" "u8" false false [],
     Arg.mk "c" "u8" false false []]

/-- The same composite with the declared field order reversed. -/
def argPointRev : Arg :=
  Arg.mk "point" "Point" false false
    [Arg.mk "c" "u8" false false [], Arg.mk "b" "u8" false false [],
     Arg.mk "a" "u8" false false []]

/-- Oracle answering the prompts for fields `a`, `b`, `c` with `1`, `2`, `3`. -/
def cliABC : Cli :=
  { confirm := fun _ b => some b
    input := fun lbl _ _ =>
      if lbl = "Enter the value for the parameter: a" then some "1"
      else if lbl = "Enter the value for the parameter: b" then some "2"
      else some "3"
    select := fun _ _ => some 0 }

/-- A `transfer` extrinsic descriptor with one raw argument field. -/
def extTransfer : Extrinsic :=
  { name := "transfer", docs := ["Transfer some balance."], fields := ["f0"] }

/-- A `Balances` pallet with the single extrinsic above. -/
def palletBalances : Pallet :=
  { name := "Balances", docs := "Balances pallet", extrinsics := [extTransfer] }

/-- A test environment in which every external operation succeeds. -/
def envT : Env :=
  { parse_url := fun s => Except.ok s
    set_up_api := fun _ => Except.ok 0
    parse_chain_metadata := fun _ => Except.ok [palletBalances]
    find_pallet_by_name := fun _ _ => Except.ok palletBalances
    process_prompt_arguments := fun _ _ => Except.ok argAmount
    construct_extrinsic := fun _ _ _ _ => Except.ok 7
    encode_call_data := fun _ _ => Except.ok "0x1234"
    sign_and_submit_extrinsic := fun _ _ _ => Except.ok "0xhash" }

/-- The test environment with an unreachable node. -/
def envDown : Env :=
  { envT with set_up_api := fun _ => Except.error "boom" }

/-- A command state with both identifiers and one positional argument
pre-supplied via the command line. -/
def cmdPre : CallParachainCommand :=
  { pallet := some "Balances", extrinsic := some "transfer", args := ["42"],
    url := "ws://node", suri := "//Alice" }

/-- A command state after `reset_for_new_call`, with a custom signer. -/
def cmdReset : CallParachainCommand :=
  { pallet := none, extrinsic := none, args := ["99"],
    url := "ws://node", suri := "//custom" }

@[simp] theorem Arg.name_mk (n t : String) (o v : Bool) (l : List Arg) :
    (Arg.mk n t o v l).name = n := rfl

@[simp] theorem Arg.type_input_mk (n t : String) (o v : Bool) (l : List Arg) :
    (Arg.mk n t o v l).type_input = t := rfl

@[simp] theorem Arg.optional_mk (n t : String) (o v : Bool) (l : List Arg) :
    (Arg.mk n t o v l).optional = o := rfl

@[simp] theorem Arg.variant_mk (n t : String) (o v : Bool) (l : List Arg) :
    (Arg.mk n t o v l).variant = v := rfl

@[simp] theorem Arg.options_mk (n t : String) (o v : Bool) (l : List Arg) :
    (Arg.mk n t o v l).options = l := rfl

theorem askConfirm_trace (cli : Cli) (label : String) (initial : Bool) (res : Except String Bool)
    (tr : List Event) (h : askConfirm cli label initial = (res, tr)) :
    ∀ e ∈ tr, ∃ b, e = Event.confirmPrompt label b := by
  unfold askConfirm at h
  rcases hc : cli.confirm label initial with _ | b <;> rw [hc] at h <;>
    cases h.symm <;> simp

theorem askInput_trace (cli : Cli) (label ph d : String) (res : Except String String)
    (tr : List Event) (h : askInput cli label ph d = (res, tr)) :
    ∀ e ∈ tr, ∃ s, e = Event.inputPrompt label ph s := by
  unfold askInput at h
  rcases hc : cli.input label ph d with _ | s <;> rw [hc] at h <;>
    cases h.symm <;> simp

theorem askSelect_trace (cli : Cli) (label : String) (items : List (String × String))
    (res : Except String Nat) (tr : List Event) (h : askSelect cli label items = (res, tr)) :
    ∀ e ∈ tr, ∃ i, e = Event.selectPrompt label i := by
  unfold askSelect at h
  rcases hc : cli.select label items with _ | i <;> rw [hc] at h <;>
    cases h.symm <;> simp

theorem Arg.sizeOf_options_lt (a : Arg) : sizeOf a.options < sizeOf a := by
  cases a with
  | mk n t o v opts => first | (simp; omega) | simp

theorem prompt_trace_shape :
    ∀ n : Nat,
      (∀ (cli : Cli) (arg : Arg), sizeOf arg ≤ n →
        (∀ e ∈ (prompt_argument cli arg).2, argEvent e) ∧
        (∀ e ∈ (prompt_argument_value cli arg).2, argEvent e) ∧
        (∀ e ∈ (prompt_for_variant cli arg).2, argEvent e) ∧
        (∀ e ∈ (prompt_for_composite cli arg).2, argEvent e)) ∧
      (∀ (cli : Cli) (l : List Arg), sizeOf l ≤ n →
        ∀ e ∈ (resolve_fields cli l).2, argEvent e) := by
  intro n
  induction n using Nat.strong_induction_on with
  | _ n IH =>
    constructor
    · intro cli arg hsz
      have hvar : ∀ e ∈ (prompt_for_variant cli arg).2, argEvent e := by
        intro e he
        simp only [prompt_for_variant] at he
        split at he
        · next e' tr heq =>
          obtain ⟨i, rfl⟩ := askSelect_trace _ _ _ _ _ heq e he
          exact ⟨arg.name, rfl⟩
        · next idx tr heq =>
          split at he
        
          · obtain ⟨i, rfl⟩ := askSelect_trace _ _ _ _ _ heq e he
            exact ⟨arg.name, rfl⟩
          · next selected hget =>
            have hsm : sizeOf selected.options < n := by
              have h1 : sizeOf selected < sizeOf arg.options :=
                List.sizeOf_lt_of_mem (List.get?_mem hget)
              have h2 := Arg.sizeOf_options_lt selected
              have h3 := Arg.sizeOf_options_lt arg
              omega
            split at he
            · obtain ⟨i, rfl⟩ := askSelect_trace _ _ _ _ _ heq e he
              exact ⟨arg.name, rfl⟩
            · split at he
              · next e' tr2 heq2 =>
                rcases List.mem_append.mp he with hl | hr
                · obtain ⟨i, rfl⟩ := askSelect_trace _ _ _ _ _ heq e hl
                  exact ⟨arg.name, rfl⟩
                · have h4 := congrArg Prod.snd heq2
                  exact (IH _ hsm).2 cli selected.options le_rfl e (by
                    simpa [h4] using hr)
              · next vs tr2 heq2 =>
                rcases List.mem_append.mp he with hl | hr
                · obtain ⟨i, rfl⟩ := askSelect_trace _ _ _ _ _ heq e hl
                  exact ⟨arg.name, rfl⟩
                · have h4 := congrArg Prod.snd heq2
                  exact (IH _ hsm).2 cli selected.options le_rfl e (by
                    simpa [h4] using hr)
      have hcomp : ∀ e ∈ (prompt_for_composite cli arg).2, argEvent e := by
        intro e he
        have hsm : sizeOf arg.options < n := by
          have := Arg.sizeOf_options_lt arg; omega
        simp only [prompt_for_composite] at he
        split at he <;> next heq =>
          have h2 := congrArg Prod.snd heq
          exact (IH _ hsm).2 cli arg.options le_rfl e (by simpa [h2] using he)
      have hval : ∀ e ∈ (prompt_argument_value cli arg).2, argEvent e := by
        intro e he
        simp only [prompt_argument_value] at he
        split at he
        · obtain ⟨s, rfl⟩ :=
            askInput_trace cli _ _ _ (prompt_for_primitive cli arg).1 _ rfl e he
          exact ⟨arg.name, rfl⟩
        · split at he
          · exact hvar e he
          · exact hcomp e he
      have harg : ∀ e ∈ (prompt_argument cli arg).2, argEvent e := by
        intro e he
        simp only [prompt_argument] at he
        split at he
        · split at he
          · next e' tr heq =>
            obtain ⟨b, rfl⟩ := askConfirm_trace _ _ _ _ _ heq e he
            exact ⟨arg.name ++ "?", by rw [String.append_assoc]⟩
          · next c tr heq =>
            split at he
            · split at he <;> next heq2 =>
                rcases List.mem_append.mp he with hl | hr
                · obtain ⟨b, rfl⟩ := askConfirm_trace _ _ _ _ _ heq e hl
                  exact ⟨arg.name ++ "?", by rw [String.append_assoc]⟩
                · have h2 := congrArg Prod.snd heq2
                  exact hval e (by simpa [h2] using hr)
            · obtain ⟨b, rfl⟩ := askConfirm_trace _ _ _ _ _ heq e he
              exact ⟨arg.name ++ "?", by rw [String.append_assoc]⟩
        · exact hval e he
      exact ⟨harg, hval, hvar, hcomp⟩
    · intro cli l hsz e he
      cases l with
      | nil => simp [resolve_fields] at he
      | cons a rest =>
        have hsa : sizeOf a < n := by
          have : sizeOf (a :: rest) = 1 + sizeOf a + sizeOf rest := by simp
          omega
        have hsr : sizeOf rest < n := by
          have : sizeOf (a :: rest) = 1 + sizeOf a + sizeOf rest := by simp
          omega
        simp only [resolve_fields] at he
        split at he
        · next e' tr heq =>
          have h2 := congrArg Prod.snd heq
          exact ((IH _ hsa).1 cli a le_rfl).1 e (by simpa [h2] using he)
        · next v tr heq =>
          have h2 := congrArg Prod.snd heq
          split at he <;> next heq2 =>
            have h3 := congrArg Prod.snd heq2
            rcases List.mem_append.mp he with hl | hr
            · exact ((IH _ hsa).1 cli a le_rfl).1 e (by simpa [h2] using hl)
            · exact (IH _ hsr).2 cli rest le_rfl e (by simpa [h3] using hr)

/-- Every event of a `prompt_argument` run is an argument-resolution prompt. -/
theorem prompt_argument_events (cli : Cli) (arg : Arg) :
    ∀ e ∈ (prompt_argument cli arg).2, argEvent e :=
  ((prompt_trace_shape (sizeOf arg)).1 cli arg le_rfl).1

/-- Every event of a `resolve_fields` run is an argument-resolution prompt. -/
theorem resolve_fields_events (cli : Cli) (l : List Arg) :
    ∀ e ∈ (resolve_fields cli l).2, argEvent e :=
  (prompt_trace_shape (sizeOf l)).2 cli l le_rfl

theorem prefixed_ne (p s t : String) (hlen : t.length < p.length) : p ++ s ≠ t := by
  intro heq
  have hl := congrArg String.length heq
  rw [String.length_append] at hl
  omega

theorem argEvent_ne_palletSelect {e : Event} (h : argEvent e) :
    ∀ i, e ≠ Event.selectPrompt "Select the pallet to call:" i := by
  intro i heq
  subst heq
  obtain ⟨s, hs⟩ := h
  exact prefixed_ne _ s _ (by decide) hs.symm

theorem argEvent_ne_extSelect {e : Event} (h : argEvent e) :
    ∀ i, e ≠ Event.selectPrompt "Select the extrinsic to call:" i := by
  intro i heq
  subst heq
  obtain ⟨s, hs⟩ := h
  exact prefixed_ne _ s _ (by decide) hs.symm

theorem argEvent_ne_repeatConfirm {e : Event} (h : argEvent e) :
    ∀ b, e ≠ Event.confirmPrompt "Do you want to perform another call to the same chain?" b := by
  intro b heq
  subst heq
  obtain ⟨s, hs⟩ := h
  exact prefixed_ne _ s _ (by decide) hs.symm

theorem configEvent_of_argEvent {e : Event} (h : argEvent e) : configEvent e := Or.inl h

theorem configEvent_ne_repeatConfirm {e : Event} (h : configEvent e) :
    ∀ b, e ≠ Event.confirmPrompt "Do you want to perform another call to the same chain?" b := by
  rcases h with h | h
  · exact argEvent_ne_repeatConfirm h
  · intro b heq
    subst heq
    exact h.elim

theorem askConfirm_ok {cli : Cli} {label : String} {initial b : Bool} {tr : List Event}
    (h : askConfirm cli label initial = (Except.ok b, tr)) :
    cli.confirm label initial = some b ∧ tr = [Event.confirmPrompt label b] := by
  unfold askConfirm at h
  rcases hc : cli.confirm label initial with _ | b' <;> rw [hc] at h
  · simp at h
  · simp at h
    obtain ⟨rfl, rfl⟩ := h
    exact ⟨rfl, rfl⟩

theorem askInput_ok {cli : Cli} {label ph d s : String} {tr : List Event}
    (h : askInput cli label ph d = (Except.ok s, tr)) :
    cli.input label ph d = some s ∧ tr = [Event.inputPrompt label ph s] := by
  unfold askInput at h
  rcases hc : cli.input label ph d with _ | s' <;> rw [hc] at h
  · simp at h
  · simp at h
    obtain ⟨rfl, rfl⟩ := h
    exact ⟨rfl, rfl⟩

theorem askSelect_ok {cli : Cli} {label : String} {items : List (String × String)}
    {idx : Nat} {tr : List Event}
    (h : askSelect cli label items = (Except.ok idx, tr)) :
    cli.select label items = some idx ∧ tr = [Event.selectPrompt label idx] := by
  unfold askSelect at h
  rcases hc : cli.select label items with _ | i' <;> rw [hc] at h
  · simp at h
  · simp at h
    obtain ⟨rfl, rfl⟩ := h
    exact ⟨rfl, rfl⟩

/-- The only events `prepare_extrinsic` can display are informational. -/
theorem prepare_extrinsic_events (env : Env) (api : Api) (cmd : CallParachainCommand) :
    ∀ e ∈ (prepare_extrinsic env api cmd).2, ∃ s, e = Event.info s := by
  intro e he
  unfold prepare_extrinsic at he
  split at he
  · simp at he
  · split at he
    · simp at he
    · split at he
      · simp at he
      · split at he
        · simp at he
        · simp at he
          exact ⟨_, he⟩

/-- Every event of the `configure` argument loop is an argument-resolution
prompt. -/
theorem resolve_args_events (cli : Cli) (env : Env) (api : Api) :
    ∀ fs, ∀ e ∈ (resolve_args cli env api fs).2, argEvent e := by
  intro fs
  induction fs with
  | nil => intro e he; simp [resolve_args] at he
  | cons f rest IHr =>
    intro e he
    simp only [resolve_args] at he
    split at he
    · simp at he
    · next argMeta heqp =>
      split at he
      · next e' tr heq =>
        have h2 := congrArg Prod.snd heq
        exact prompt_argument_events cli argMeta e (by simpa [h2] using he)
      · next v tr heq =>
        have h2 := congrArg Prod.snd heq
        split at he <;> next heq2 =>
          have h3 := congrArg Prod.snd heq2
          rcases List.mem_append.mp he with hl | hr
          · exact prompt_argument_events cli argMeta e (by simpa [h2] using hl)
          · exact IHr e (by simpa [h3] using hr)

/-- Events of the url-resolution step are url input prompts. -/
theorem resolve_url_trace (cli : Cli) (env : Env) (rep : Bool) (cmd : CallParachainCommand) :
    ∀ e ∈ (resolve_url cli env rep cmd).2,
      ∃ r, e = Event.inputPrompt "Which chain would you like to interact with?"
        "wss://rpc1.paseo.popnetwork.xyz" r := by
  intro e he
  unfold resolve_url at he
  split at he
  · split at he
    · next e1 tr heq => exact askInput_trace _ _ _ _ _ _ heq e he
    · next u tr heq =>
      split at he <;> exact askInput_trace _ _ _ _ _ _ heq e he
  · simp at he

/-- A successful url-resolution step only changes the `url` field, and on a
repeat run changes nothing and shows nothing. -/
theorem resolve_url_ok {cli : Cli} {env : Env} {rep : Bool}
    {cmd cmd1 : CallParachainCommand} {tr : List Event}
    (h : resolve_url cli env rep cmd = (Except.ok cmd1, tr)) :
    cmd1.pallet = cmd.pallet ∧ cmd1.extrinsic = cmd.extrinsic ∧ cmd1.args = cmd.args ∧
    cmd1.suri = cmd.suri ∧ (rep = true → cmd1.url = cmd.url ∧ tr = []) := by
  unfold resolve_url at h
  split at h
  · next hc =>
    split at h
    · simp at h
    · next u tru heq =>
      split at h
      · simp at h
      · simp at h
        obtain ⟨rfl, rfl⟩ := h
        refine ⟨rfl, rfl, rfl, rfl, fun hrep => ?_⟩
        rw [hrep] at hc
        simp at hc
  · simp at h
    obtain ⟨rfl, rfl⟩ := h
    exact ⟨rfl, rfl, rfl, rfl, fun _ => ⟨rfl, rfl⟩⟩

/-- Events of the pallet-resolution step are pallet selection prompts. -/
theorem resolve_pallet_trace (cli : Cli) (env : Env) (api : Api) (pallets : List Pallet)
    (cmd : CallParachainCommand) :
    ∀ e ∈ (resolve_pallet cli env api pallets cmd).2,
      ∃ i, e = Event.selectPrompt "Select the pallet to call:" i := by
  intro e he
  unfold resolve_pallet at he
  split at he
  · split at he <;> simp at he
  · split at he
    · next e1 tr heq => exact askSelect_trace _ _ _ _ _ heq e he
    · next idx tr heq =>
      split at he <;> exact askSelect_trace _ _ _ _ _ heq e he

/-- A successful pallet-resolution step: a pre-supplied pallet is looked up
silently, a missing one is selected interactively; only the `pallet` field
can change. -/
theorem resolve_pallet_ok {cli : Cli} {env : Env} {api : Api} {pallets : List Pallet}
    {cmd : CallParachainCommand} {p : Pallet} {cmd2 : CallParachainCommand} {tr : List Event}
    (h : resolve_pallet cli env api pallets cmd = (Except.ok (p, cmd2), tr)) :
    cmd2.extrinsic = cmd.extrinsic ∧ cmd2.args = cmd.args ∧ cmd2.url = cmd.url ∧
    cmd2.suri = cmd.suri ∧
    ((cmd.pallet ≠ none ∧ tr = []) ∨
     (cmd.pallet = none ∧ ∃ i, tr = [Event.selectPrompt "Select the pallet to call:" i])) := by
  unfold resolve_pallet at h
  split at h
  · next name hp =>
    split at h
    · simp at h
    · simp at h
      obtain ⟨⟨rfl, rfl⟩, rfl⟩ := h
      exact ⟨rfl, rfl, rfl, rfl, Or.inl ⟨by simp [hp], rfl⟩⟩
  · next hp =>
    split at h
    · simp at h
    · next idx tr0 heq =>
      split at h
      · simp at h
      · simp at h
        obtain ⟨⟨rfl, rfl⟩, rfl⟩ := h
        obtain ⟨-, rfl⟩ := askSelect_ok heq
        exact ⟨rfl, rfl, rfl, rfl, Or.inr ⟨hp, idx, rfl⟩⟩

/-- Every event a `configure` run (successful or not) can display. -/
theorem configure_events (cli : Cli) (env : Env) (rep : Bool) (cmd : CallParachainCommand) :
    ∀ e ∈ (configure cli env rep cmd).2, configEvent e := by
  intro e he
  have hintro : ∀ x ∈ (if rep then ([] : List Event) else [Event.intro "Call a parachain"]),
      configEvent x := by
    intro x hx
    split at hx
    · simp at hx
    · simp at hx
      subst hx
      exact Or.inr trivial
  simp only [configure] at he
  split at he
  · next e1 tr1 heq =>
    have h2 := congrArg Prod.snd heq
    simp only [List.mem_append] at he
    rcases he with hi | hu
    · exact hintro e hi
    · obtain ⟨r, rfl⟩ := resolve_url_trace cli env rep cmd e (by simpa [h2] using hu)
      exact Or.inr rfl
  · next cmd1 trUrl heq =>
    have hU := congrArg Prod.snd heq
    have hUev : ∀ x ∈ trUrl, configEvent x := by
      intro x hx
      obtain ⟨r, rfl⟩ := resolve_url_trace cli env rep cmd x (by simpa [hU] using hx)
      exact Or.inr rfl
    split at he
    · simp only [List.mem_append] at he
      rcases he with hi | hu
      · exact hintro e hi
      · exact hUev e hu
    · next api0 heqApi =>
      split at he
      · simp only [List.mem_append] at he
        rcases he with hi | hu
        · exact hintro e hi
        · exact hUev e hu
      · next pallets hmeta =>
        split at he
        · next e1 trP heqP =>
          have hP := congrArg Prod.snd heqP
          simp only [List.mem_append] at he
          rcases he with (hi | hu) | hp
          · exact hintro e hi
          · exact hUev e hu
          · obtain ⟨i, rfl⟩ := resolve_pallet_trace cli env api0 pallets cmd1 e
              (by simpa [hP] using hp)
            exact Or.inr (Or.inl rfl)
        · next pallet cmd2 trPallet heqP =>
          have hP := congrArg Prod.snd heqP
          have hPev : ∀ x ∈ trPallet, configEvent x := by
            intro x hx
            obtain ⟨i, rfl⟩ := resolve_pallet_trace cli env api0 pallets cmd1 x
              (by simpa [hP] using hx)
            exact Or.inr (Or.inl rfl)
          split at he
          · next e1 trE heqE =>
            simp only [List.mem_append] at he
            rcases he with ((hi | hu) | hp) | hs
            · exact hintro e hi
            · exact hUev e hu
            · exact hPev e hp
            · obtain ⟨i, rfl⟩ := askSelect_trace _ _ _ _ _ heqE e hs
              exact Or.inr (Or.inr rfl)
          · next idx trE heqE =>
            have hEev : ∀ x ∈ trE, configEvent x := by
              intro x hx
              obtain ⟨i, rfl⟩ := askSelect_trace _ _ _ _ _ heqE x hx
              exact Or.inr (Or.inr rfl)
            split at he
            · simp only [List.mem_append] at he
              rcases he with ((hi | hu) | hp) | hs
              · exact hintro e hi
              · exact hUev e hu
              · exact hPev e hp
              · exact hEev e hs
            · next ext hget =>
              split at he
              · next e1 trA heqA =>
                have hA := congrArg Prod.snd heqA
                simp only [List.mem_append] at he
                rcases he with (((hi | hu) | hp) | hs) | ha
                · exact hintro e hi
                · exact hUev e hu
                · exact hPev e hp
                · exact hEev e hs
                · exact Or.inl (resolve_args_events cli env api0 ext.fields e
                    (by simpa [hA] using ha))
              · next vs trA heqA =>
                have hA := congrArg Prod.snd heqA
                simp only [List.mem_append, List.mem_singleton] at he
                rcases he with ((((hi | hu) | hp) | hs) | ha) | hlast
                · exact hintro e hi
                · exact hUev e hu
                · exact hPev e hp
                · exact hEev e hs
                · exact Or.inl (resolve_args_events cli env api0 ext.fields e
                    (by simpa [hA] using ha))
                · subst hlast
                  exact Or.inr trivial

/-- Structure of a successful `configure` run: the trace decomposes into the
intro banner, the url prompt, the pallet step, the always-present extrinsic
selection prompt, the argument prompts and the final summary line; the
signer is untouched and on a repeat run the url is untouched. -/
theorem configure_ok_decomp {cli : Cli} {env : Env} {rep : Bool}
    {cmd cmd2 : CallParachainCommand} {api : Api} {tr : List Event}
    (h : configure cli env rep cmd = (Except.ok (cmd2, api), tr)) :
    ∃ trUrl trPallet trArgs idxE,
      tr = (if rep then ([] : List Event) else [Event.intro "Call a parachain"])
          ++ trUrl ++ trPallet
          ++ [Event.selectPrompt "Select the extrinsic to call:" idxE]
          ++ trArgs ++ [Event.info (display cmd2)]
      ∧ (∀ e ∈ trUrl, ∃ r, e = Event.inputPrompt "Which chain would you like to interact with?"
          "wss://rpc1.paseo.popnetwork.xyz" r)
      ∧ ((cmd.pallet ≠ none ∧ trPallet = []) ∨
         (cmd.pallet = none ∧ ∃ i, trPallet = [Event.selectPrompt "Select the pallet to call:" i]))
      ∧ (∀ e ∈ trArgs, argEvent e)
      ∧ cmd2.suri = cmd.suri
      ∧ (rep = true → cmd2.url = cmd.url) := by
  simp only [configure] at h
  split at h
  · simp at h
  · next cmd1 trUrl hequ =>
    have hUrl := resolve_url_ok hequ
    have hU := congrArg Prod.snd hequ
    split at h
    · simp at h
    · next api0 heqApi =>
      split at h
      · simp at h
      · next pallets hmeta =>
        split at h
        · simp at h
        · next pallet cmdP trPallet heqP =>
          have hPal := resolve_pallet_ok heqP
          have hP := congrArg Prod.snd heqP
          split at h
          · simp at h
          · next idx trE heqE =>
            obtain ⟨-, rfl⟩ := askSelect_ok heqE
            split at h
            · simp at h
            · next ext hget =>
              split at h
              · simp at h
              · next vs trA heqA =>
                have hA := congrArg Prod.snd heqA
                simp at h
                obtain ⟨⟨hcmd, rfl⟩, rfl⟩ := h
                refine ⟨trUrl, trPallet, trA, idx, ?_, ?_, ?_, ?_, ?_, ?_⟩
                · simp [List.append_assoc, hcmd]
                · intro e hx
                  exact resolve_url_trace cli env rep cmd e (by simpa [hU] using hx)
                · rcases hPal.2.2.2.2 with ⟨hne, htr⟩ | ⟨hno, i, htr⟩
                  · exact Or.inl ⟨by rw [← hUrl.1]; exact hne, htr⟩
                  · exact Or.inr ⟨by rw [← hUrl.1]; exact hno, i, htr⟩
                · intro e hx
                  exact resolve_args_events cli env api0 ext.fields e (by simpa [hA] using hx)
                · rw [← hcmd]
                  simpa using hPal.2.2.2.1.trans hUrl.2.2.2.1
                · intro hrep
                  rw [← hcmd]
                  have h1 : cmdP.url = cmd1.url := hPal.2.2.1
                  have h2 : cmd1.url = cmd.url := (hUrl.2.2.2.2 hrep).1
                  simpa using h1.trans h2

theorem resolve_fields_ok_pointwise {cli : Cli} {l : List Arg} {vs : List String}
    {tr : List Event} (h : resolve_fields cli l = (Except.ok vs, tr)) :
    vs.length = l.length ∧
    ∀ i, i < l.length →
      ∃ a v tra, l.get? i = some a ∧ vs.get? i = some v ∧
        prompt_argument cli a = (Except.ok v, tra) := by
  induction l generalizing vs tr with
  | nil =>
    simp [resolve_fields] at h
    obtain ⟨rfl, rfl⟩ := h
    simp
  | cons a rest IH =>
    simp only [resolve_fields] at h
    split at h
    · simp at h
    · next v tra heq =>
      split at h
      · simp at h
      · next vs0 tr2 heq2 =>
        simp at h
        obtain ⟨rfl, rfl⟩ := h
        obtain ⟨hlen, hpt⟩ := IH heq2
        refine ⟨by simp [hlen], ?_⟩
        intro i hi
        cases i with
        | zero => exact ⟨a, v, tra, rfl, rfl, heq⟩
        | succ j =>
          simp only [List.length_cons] at hi
          obtain ⟨a2, v2, tra2, h1, h2, h3⟩ := hpt j (by omega)
          exact ⟨a2, v2, tra2, by simpa using h1, by simpa using h2, h3⟩

theorem resolve_fields_map {cli : Cli} :
    ∀ {l : List Arg}, (∀ a ∈ l, ∃ v tra, prompt_argument cli a = (Except.ok v, tra)) →
      ∃ tr, resolve_fields cli l = (Except.ok (l.map (resolvedValue cli)), tr) := by
  intro l
  induction l with
  | nil => exact fun _ => ⟨[], by simp [resolve_fields]⟩
  | cons a rest IH =>
    intro hall
    obtain ⟨v, tra, ha⟩ := hall a (by simp)
    obtain ⟨tr2, hrest⟩ := IH (fun x hx => hall x (by simp [hx]))
    have hv : resolvedValue cli a = v := by
      have h1 := congrArg Prod.fst ha
      simp [resolvedValue, h1]
    refine ⟨tra ++ tr2, ?_⟩
    simp [resolve_fields, ha, hrest, hv]

/-- Claim C1: an optional descriptor is guarded by a confirm prompt; when the
operator declines, the resolver returns exactly the literal `None` without any
further prompting, and when the operator accepts, it returns exactly
`Some(v)` where `v` is the non-optional resolution of the same descriptor,
whatever its inner shape. -/
theorem claim_C1 (cli : Cli) (arg : Arg) (hopt : arg.optional = true) :
    (cli.confirm ("Do you want to provide a value for the optional parameter: "
        ++ arg.name ++ "?") false = some false →
      prompt_argument cli arg = (Except.ok "None",
        [Event.confirmPrompt ("Do you want to provide a value for the optional parameter: "
          ++ arg.name ++ "?") false])) ∧
    (cli.confirm ("Do you want to provide a value for the optional parameter: "
        ++ arg.name ++ "?") false = some true →
      ∀ v tr, prompt_argument_value cli arg = (Except.ok v, tr) →
        prompt_argument cli arg = (Except.ok ("Some(" ++ v ++ ")"),
          Event.confirmPrompt ("Do you want to provide a value for the optional parameter: "
            ++ arg.name ++ "?") true :: tr)) := by
  constructor
  · intro hc
    simp [prompt_argument, hopt, askConfirm, hc]
  · intro hc v tr hval
    simp [prompt_argument, hopt, askConfirm, hc, hval]

theorem claim_C1_witness :
    prompt_argument cliNo argTip = (Except.ok "None",
      [Event.confirmPrompt "Do you want to provide a value for the optional parameter: tip?"
        false]) ∧
    prompt_argument cliYes argTip = (Except.ok "Some(99)",
      [Event.confirmPrompt "Do you want to provide a value for the optional parameter: tip?"
        true,
       Event.inputPrompt "Enter the value for the parameter: tip" "Type required: Option<u128>"
        "99"]) := by
  constructor
  · have h := (claim_C1 cliNo argTip rfl).1 rfl
    simpa [argTip] using h
  · have h := (claim_C1 cliYes argTip rfl).2 rfl "99"
      [Event.inputPrompt "Enter the value for the parameter: tip" "Type required: Option<u128>"
        "99"]
      (by simp [prompt_argument_value, prompt_for_primitive, askInput, argTip, cliYes])
    simpa [argTip] using h

/-- Claim C4: after the operator selects one alternative of a variant
descriptor, an alternative with nested fields resolves each field recursively
in declared order and renders `Name(f1, f2, ...)` joined by `, `, while a
field-less alternative renders as the bare alternative name. -/
theorem claim_C4 (cli : Cli) (arg : Arg) (idx : Nat) (selected : Arg)
    (hsel : cli.select ("Select the value for the parameter: " ++ arg.name)
      (arg.options.map fun o => (o.name, o.type_input)) = some idx)
    (hget : arg.options.get? idx = some selected) :
    (selected.options = [] →
      prompt_for_variant cli arg = (Except.ok selected.name,
        [Event.selectPrompt ("Select the value for the parameter: " ++ arg.name) idx])) ∧
    (∀ vs tr2, resolve_fields cli selected.options = (Except.ok vs, tr2) →
      selected.options ≠ [] →
      prompt_for_variant cli arg =
        (Except.ok (selected.name ++ "(" ++ String.intercalate ", " vs ++ ")"),
         Event.selectPrompt ("Select the value for the parameter: " ++ arg.name) idx :: tr2) ∧
      vs.length = selected.options.length ∧
      ∀ i, i < selected.options.length →
        ∃ a v tra, selected.options.get? i = some a ∧ vs.get? i = some v ∧
          prompt_argument cli a = (Except.ok v, tra)) := by
  constructor
  · intro hempty
    simp only [prompt_for_variant, askSelect, hsel]
    split
    · next heq =>
      rw [hget] at heq
      cases heq
    · next sel2 heq =>
      rw [hget] at heq
      injection heq with heq2
      subst heq2
      simp [hempty]
  · intro vs tr2 hres hne
    obtain ⟨hlen, hpt⟩ := resolve_fields_ok_pointwise hres
    refine ⟨?_, hlen, hpt⟩
    simp only [prompt_for_variant, askSelect, hsel]
    split
    · next heq =>
      rw [hget] at heq
      cases heq
    · next sel2 heq =>
      rw [hget] at heq
      injection heq with heq2
      subst heq2
      simp [hres, List.isEmpty_iff, hne]

theorem claim_C4_witness :
    prompt_for_variant cliABC argChoice =
      (Except.ok "Foo(1, 2)",
       [Event.selectPrompt "Select the value for the parameter: x" 0,
        Event.inputPrompt "Enter the value for the parameter: a" "Type required: u32" "1",
        Event.inputPrompt "Enter the value for the parameter: b" "Type required: bool" "2"]) := by
  have h := (claim_C4 cliABC argChoice 0 argFoo rfl (by simp [argChoice])).2
    ["1", "2"]
    [Event.inputPrompt "Enter the value for the parameter: a" "Type required: u32" "1",
     Event.inputPrompt "Enter the value for the parameter: b" "Type required: bool" "2"]
    (by simp [resolve_fields, prompt_argument, prompt_argument_value, prompt_for_primitive,
      askInput, cliABC, argFoo])
    (by simp [argFoo])
  simpa [argChoice, argFoo] using h.1

/-- Claim C5: a composite descriptor resolves every sub-argument in the exact
declared order and joins the results with `, ` and no enclosing wrapper;
permuting the declared field order permutes the output values identically. -/
theorem claim_C5 (cli : Cli) (arg : Arg)
    (hall : ∀ a ∈ arg.options, ∃ v tra, prompt_argument cli a = (Except.ok v, tra)) :
    (∃ tr, prompt_for_composite cli arg =
      (Except.ok (String.intercalate ", " (arg.options.map (resolvedValue cli))), tr)) ∧
    ∀ arg2 : Arg, arg2.options.Perm arg.options →
      (∃ tr2, prompt_for_composite cli arg2 =
        (Except.ok (String.intercalate ", " (arg2.options.map (resolvedValue cli))), tr2)) ∧
      (arg2.options.map (resolvedValue cli)).Perm (arg.options.map (resolvedValue cli)) := by
  have main : ∀ (b : Arg),
      (∀ a ∈ b.options, ∃ v tra, prompt_argument cli a = (Except.ok v, tra)) →
      ∃ tr, prompt_for_composite cli b =
        (Except.ok (String.intercalate ", " (b.options.map (resolvedValue cli))), tr) := by
    intro b hb
    obtain ⟨tr, hres⟩ := resolve_fields_map hb
    exact ⟨tr, by simp [prompt_for_composite, hres]⟩
  refine ⟨main arg hall, ?_⟩
  intro arg2 hperm
  exact ⟨main arg2 (fun a ha => hall a (hperm.subset ha)), hperm.map _⟩

theorem claim_C5_witness :
    (∃ tr, prompt_for_composite cliABC argPoint = (Except.ok "1, 2, 3", tr)) ∧
    (∃ tr2, prompt_for_composite cliABC argPointRev = (Except.ok "3, 2, 1", tr2)) := by
  have hall : ∀ a ∈ argPoint.options,
      ∃ v tra, prompt_argument cliABC a = (Except.ok v, tra) := by
    intro a ha
    simp [argPoint] at ha
    rcases ha with rfl | rfl | rfl
    · exact ⟨"1", [Event.inputPrompt "Enter the value for the parameter: a" "Type required: u8"
        "1"], by simp [prompt_argument, prompt_argument_value, prompt_for_primitive,
          askInput, cliABC]⟩
    · exact ⟨"2", [Event.inputPrompt "Enter the value for the parameter: b" "Type required: u8"
        "2"], by simp [prompt_argument, prompt_argument_value, prompt_for_primitive,
          askInput, cliABC]⟩
    · exact ⟨"3", [Event.inputPrompt "Enter the value for the parameter: c" "Type required: u8"
        "3"], by simp [prompt_argument, prompt_argument_value, prompt_for_primitive,
          askInput, cliABC]⟩
  have h := claim_C5 cliABC argPoint hall
  constructor
  · have h1 := h.1
    simpa [argPoint, resolvedValue, prompt_argument, prompt_argument_value,
      prompt_for_primitive, askInput, cliABC] using h1
  · have hperm : argPointRev.options.Perm argPoint.options := by
      rw [show argPointRev.options = argPoint.options.reverse from rfl]
      exact (argPoint.options).reverse_perm
    have h2 := (h.2 argPointRev hperm).1
    simpa [argPointRev, resolvedValue, prompt_argument, prompt_argument_value,
      prompt_for_primitive, askInput, cliABC] using h2

/-- Claim C8: the repeat transition clears exactly the resolved module and
operation names; the connection url, the signer identity and the argument
list are left unchanged, and a repeat `configure` run never changes the url
or the signer either. -/
theorem claim_C8 (cmd : CallParachainCommand) :
    (reset_for_new_call cmd).pallet = none ∧
    (reset_for_new_call cmd).extrinsic = none ∧
    (reset_for_new_call cmd).url = cmd.url ∧
    (reset_for_new_call cmd).suri = cmd.suri ∧
    (reset_for_new_call cmd).args = cmd.args ∧
    ∀ (cli : Cli) (env : Env) (cmd2 : CallParachainCommand) (api : Api) (tr : List Event),
      configure cli env true cmd = (Except.ok (cmd2, api), tr) →
      cmd2.url = cmd.url ∧ cmd2.suri = cmd.suri := by
  refine ⟨rfl, rfl, rfl, rfl, rfl, ?_⟩
  intro cli env cmd2 api tr h
  obtain ⟨trUrl, trPallet, trArgs, idxE, -, -, -, -, hsuri, hurl⟩ := configure_ok_decomp h
  exact ⟨hurl rfl, hsuri⟩

theorem claim_C8_witness :
    (reset_for_new_call cmdPre).pallet = none ∧
    (reset_for_new_call cmdPre).extrinsic = none ∧
    (reset_for_new_call cmdPre).url = "ws://node" ∧
    (reset_for_new_call cmdPre).suri = "//Alice" ∧
    (reset_for_new_call cmdPre).args = ["42"] ∧
    ∀ (cmd2 : CallParachainCommand) (api : Api) (tr : List Event),
      configure cliEcho envT true cmdReset = (Except.ok (cmd2, api), tr) →
      cmd2.url = "ws://node" ∧ cmd2.suri = "//custom" := by
  obtain ⟨h1, h2, h3, h4, h5, h6⟩ := claim_C8 cmdReset
  refine ⟨(claim_C8 cmdPre).1, (claim_C8 cmdPre).2.1, (claim_C8 cmdPre).2.2.1,
    (claim_C8 cmdPre).2.2.2.1, (claim_C8 cmdPre).2.2.2.2.1, ?_⟩
  intro cmd2 api tr h
  exact h6 cliEcho envT cmd2 api tr h

/-- Claim C9: the display/audit line is a deterministic function of the
resolved state, byte-for-byte equal to the spec's format
`pop call parachain --pallet <module> --extrinsic <operation>
--args "<a1>", "<a2>", ... --url <target> --suri <signer>` with the
`--pallet`/`--extrinsic`/`--args` segments omitted exactly when the
corresponding value is absent or empty. -/
theorem claim_C9 (cmd : CallParachainCommand) :
    display cmd = spec_display "pop" cmd.pallet cmd.extrinsic cmd.args cmd.url cmd.suri := by
  unfold display spec_display
  rcases hp : cmd.pallet with _ | p <;> rcases he : cmd.extrinsic with _ | e <;>
    rcases ha : cmd.args with _ | ⟨x, xs⟩ <;>
      simp [String.append_assoc, String.append_empty, String.empty_append] <;>
    (repeat rw [← String.append_assoc]) <;> rfl

/-- Events of the signer step are signer input prompts. -/
theorem resolve_suri_trace (cli : Cli) (cmd : CallParachainCommand) :
    ∀ e ∈ (resolve_suri cli cmd).2,
      ∃ s, e = Event.inputPrompt "Who is going to sign the extrinsic:" "//Alice" s := by
  intro e he
  unfold resolve_suri at he
  split at he
  · split at he
    · next e1 tr heq => exact askInput_trace _ _ _ _ _ _ heq e he
    · next s0 tr heq => exact askInput_trace _ _ _ _ _ _ heq e he
  · simp at he

/-- A successful signer step only changes the `suri` field, and does nothing
when the signer is already non-empty. -/
theorem resolve_suri_ok {cli : Cli} {cmd cmdS : CallParachainCommand} {trS : List Event}
    (h : resolve_suri cli cmd = (Except.ok cmdS, trS)) :
    cmdS.pallet = cmd.pallet ∧ cmdS.extrinsic = cmd.extrinsic ∧ cmdS.args = cmd.args ∧
    cmdS.url = cmd.url ∧ (cmd.suri ≠ "" → cmdS = cmd ∧ trS = []) := by
  unfold resolve_suri at h
  split at h
  · next hemp =>
    split at h
    · simp at h
    · next s0 tr heq =>
      simp at h
      obtain ⟨rfl, rfl⟩ := h
      exact ⟨rfl, rfl, rfl, rfl, fun hne => absurd hemp hne⟩
  · simp at h
    obtain ⟨rfl, rfl⟩ := h
    exact ⟨rfl, rfl, rfl, rfl, fun _ => ⟨rfl, rfl⟩⟩

/-- Claim C6: when the operator declines the submission confirmation prompt,
the sign-and-submit operation is never invoked, the "not submitted, canceled
by the user" message is reported, and the session ends with that message. -/
theorem claim_C6 (cli : Cli) (env : Env) (fuel : Nat) (cmd : CallParachainCommand)
    (api : Api) (tx : Tx) (pr : Bool) (cmd2 : CallParachainCommand) (tr : List Event)
    (hconfirm : cli.confirm "Do you want to submit the call?" true = some false)
    (hrun : send_extrinsic cli env fuel cmd api tx pr = (Except.ok cmd2, tr)) :
    (∀ s, Event.submitAttempt s ∉ tr) ∧
    Event.outroCancel ("Extrinsic " ++ debugOptionString cmd.extrinsic
      ++ " was not submitted. Operation canceled by the user.") ∈ tr ∧
    ∃ pre, tr = pre ++ [Event.outroCancel ("Extrinsic " ++ debugOptionString cmd.extrinsic
      ++ " was not submitted. Operation canceled by the user.")] := by
  rw [send_extrinsic] at hrun
  split at hrun
  · simp at hrun
  · next cmdS trS heqS =>
    have hS := resolve_suri_ok heqS
    have hStr := congrArg Prod.snd heqS
    split at hrun
    · simp at hrun
    · next c trC heqC =>
      obtain ⟨hc, rfl⟩ := askConfirm_ok heqC
      rw [hconfirm] at hc
      injection hc with hc2
      subst hc2
      simp at hrun
      obtain ⟨rfl, rfl⟩ := hrun
      refine ⟨?_, ?_, ?_⟩
      · intro s0 hs
        rcases List.mem_append.mp hs with hs | hs
        · obtain ⟨s1, heq⟩ := resolve_suri_trace cli cmd _ (by simpa [hStr] using hs)
          cases heq
        · simp at hs
      · simp [hS.2.1]
      · refine ⟨trS ++ [Event.info (display cmdS),
          Event.confirmPrompt "Do you want to submit the call?" false], ?_⟩
        simp [hS.2.1, List.append_assoc]

theorem claim_C6_witness :
    ∃ tr, send_extrinsic cliNo envT 5 cmdPre 0 7 true = (Except.ok cmdPre, tr) ∧
      (∀ s, Event.submitAttempt s ∉ tr) ∧
      Event.outroCancel ("Extrinsic " ++ debugOptionString cmdPre.extrinsic
        ++ " was not submitted. Operation canceled by the user.") ∈ tr := by
  have hrun : send_extrinsic cliNo envT 5 cmdPre 0 7 true =
      (Except.ok cmdPre,
       [Event.info (display cmdPre),
        Event.confirmPrompt "Do you want to submit the call?" false,
        Event.outroCancel ("Extrinsic " ++ debugOptionString cmdPre.extrinsic
          ++ " was not submitted. Operation canceled by the user.")]) := by
    rw [send_extrinsic]
    simp [resolve_suri, askConfirm, cliNo, cmdPre]
  have h := claim_C6 cliNo envT 5 cmdPre 0 7 true cmdPre _ rfl hrun
  exact ⟨_, hrun, h.1, h.2.1⟩

/-- With the repeat flag off, `send_extrinsic` never shows the repeat
prompt, whatever the outcome. -/
theorem send_false_no_repeat (cli : Cli) (env : Env) (fuel : Nat)
    (cmd : CallParachainCommand) (api : Api) (tx : Tx) :
    ∀ b, Event.confirmPrompt "Do you want to perform another call to the same chain?" b
      ∉ (send_extrinsic cli env fuel cmd api tx false).2 := by
  intro b hmem
  rw [send_extrinsic] at hmem
  split at hmem
  · next e trS heqS =>
    have hStr := congrArg Prod.snd heqS
    obtain ⟨s1, heq⟩ := resolve_suri_trace cli cmd _ (by simpa [hStr] using hmem)
    cases heq
  · next cmdS trS heqS =>
    have hStr := congrArg Prod.snd heqS
    have hTrS : ∀ x ∈ trS,
        ∃ s1, x = Event.inputPrompt "Who is going to sign the extrinsic:" "//Alice" s1 :=
      fun x hx => resolve_suri_trace cli cmd x (by simpa [hStr] using hx)
    split at hmem
    · next e trC heqC =>
      try dsimp only at hmem
      repeat' first
        | (rcases List.mem_append.mp hmem with hmem | hmem)
        | (rcases List.mem_cons.mp hmem with hmem | hmem)
      all_goals
        first
        | (obtain ⟨s1, heq⟩ := hTrS _ hmem; cases heq)
        | (obtain ⟨b2, heq⟩ := askConfirm_trace _ _ _ _ _ heqC _ hmem; simp at heq)
        | simp at hmem
    · next c trC heqC =>
      obtain ⟨hc, rfl⟩ := askConfirm_ok heqC
      split at hmem
      · try dsimp only at hmem
        repeat' first
          | (rcases List.mem_append.mp hmem with hmem | hmem)
          | (rcases List.mem_cons.mp hmem with hmem | hmem)
        all_goals
          first
          | (obtain ⟨s1, heq⟩ := hTrS _ hmem; cases heq)
          | (obtain ⟨b2, heq⟩ := askConfirm_trace _ _ _ _ _ heqC _ hmem; simp at heq)
          | simp at hmem
      · split at hmem
        · try dsimp only at hmem
          repeat' first
            | (rcases List.mem_append.mp hmem with hmem | hmem)
            | (rcases List.mem_cons.mp hmem with hmem | hmem)
          all_goals
            first
            | (obtain ⟨s1, heq⟩ := hTrS _ hmem; cases heq)
            | (obtain ⟨b2, heq⟩ := askConfirm_trace _ _ _ _ _ heqC _ hmem; simp at heq)
            | simp at hmem
        · next res heqR =>
          rw [if_pos rfl] at hmem
          try dsimp only at hmem
          repeat' first
            | (rcases List.mem_append.mp hmem with hmem | hmem)
            | (rcases List.mem_cons.mp hmem with hmem | hmem)
          all_goals
            first
            | (obtain ⟨s1, heq⟩ := hTrS _ hmem; cases heq)
            | (obtain ⟨b2, heq⟩ := askConfirm_trace _ _ _ _ _ heqC _ hmem; simp at heq)
            | simp at hmem

/-- Claim C7: the repeat prompt after a successful submission is reachable
exactly when the operation name was not pre-supplied at session start: a
session started with a pre-supplied extrinsic never shows the repeat prompt,
an interactive session shows it after every successful submission, and a
non-interactive session reports completion instead. -/
theorem claim_C7 (cli : Cli) (env : Env) (fuel : Nat) (cmd : CallParachainCommand)
    (api : Api) (tx : Tx) :
    (cmd.extrinsic ≠ none →
      ∀ b, Event.confirmPrompt "Do you want to perform another call to the same chain?" b
        ∉ (execute cli env fuel cmd).2) ∧
    (∀ cmd2 tr, send_extrinsic cli env fuel cmd api tx true = (Except.ok cmd2, tr) →
      ∀ s, Event.submitAttempt s ∈ tr →
        ∃ b, Event.confirmPrompt "Do you want to perform another call to the same chain?" b
          ∈ tr) ∧
    (∀ cmd2 tr, send_extrinsic cli env fuel cmd api tx false = (Except.ok cmd2, tr) →
      (∀ b, Event.confirmPrompt "Do you want to perform another call to the same chain?" b
        ∉ tr) ∧
      (∀ s, Event.submitAttempt s ∈ tr → Event.outro "Call completed successfully!" ∈ tr)) := by
  refine ⟨?_, ?_, ?_⟩
  · intro hne b hmem
    have hflag : cmd.extrinsic.isNone = false := by
      rcases h : cmd.extrinsic with _ | e
      · exact absurd h hne
      · rfl
    simp only [execute, hflag] at hmem
    split at hmem
    · next e1 trc heqc =>
      rcases List.mem_append.mp hmem with h1 | h1
      · exact configEvent_ne_repeatConfirm
          (configure_events cli env false cmd _ (by simpa [congrArg Prod.snd heqc] using h1))
          b rfl
      · simp at h1
    · next cmdc apic trc heqc =>
      have hcev : ∀ x ∈ trc, configEvent x :=
        fun x hx => configure_events cli env false cmd x
          (by simpa [congrArg Prod.snd heqc] using hx)
      split at hmem
      · next e1 trp heqp =>
        simp only [List.append_assoc, List.mem_append, List.mem_singleton] at hmem
        rcases hmem with h1 | h1 | h1
        · exact configEvent_ne_repeatConfirm (hcev _ h1) b rfl
        · obtain ⟨s1, heq⟩ := prepare_extrinsic_events env apic cmdc _
            (by simpa [congrArg Prod.snd heqp] using h1)
          cases heq
        · cases h1
      · next tx0 trp heqp =>
        have hpev : ∀ x ∈ trp, ∃ s1, x = Event.info s1 :=
          fun x hx => prepare_extrinsic_events env apic cmdc x
            (by simpa [congrArg Prod.snd heqp] using hx)
        split at hmem
        · next e1 trs heqs =>
          simp only [List.append_assoc, List.mem_append, List.mem_singleton] at hmem
          rcases hmem with h1 | h1 | h1 | h1
          · exact configEvent_ne_repeatConfirm (hcev _ h1) b rfl
          · obtain ⟨s1, heq⟩ := hpev _ h1
            cases heq
          · exact send_false_no_repeat cli env fuel cmdc apic tx0 b
              (by simpa [congrArg Prod.snd heqs] using h1)
          · cases h1
        · next r trs heqs =>
          simp only [List.append_assoc, List.mem_append] at hmem
          rcases hmem with h1 | h1 | h1
          · exact configEvent_ne_repeatConfirm (hcev _ h1) b rfl
          · obtain ⟨s1, heq⟩ := hpev _ h1
            cases heq
          · exact send_false_no_repeat cli env fuel cmdc apic tx0 b
              (by simpa [congrArg Prod.snd heqs] using h1)
  · intro cmd2 tr hrun s0 hsub
    rw [send_extrinsic] at hrun
    split at hrun
    · simp at hrun
    · next cmdS trS heqS =>
      have hStr := congrArg Prod.snd heqS
      have hTrS : ∀ x ∈ trS,
          ∃ s1, x = Event.inputPrompt "Who is going to sign the extrinsic:" "//Alice" s1 :=
        fun x hx => resolve_suri_trace cli cmd x (by simpa [hStr] using hx)
      split at hrun
      · simp at hrun
      · next c trC heqC =>
        obtain ⟨hc, rfl⟩ := askConfirm_ok heqC
        split at hrun
        · exfalso
          simp at hrun
          obtain ⟨rfl, rfl⟩ := hrun
          try dsimp only at hsub
          repeat' first
            | (rcases List.mem_append.mp hsub with hsub | hsub)
            | (rcases List.mem_cons.mp hsub with hsub | hsub)
          all_goals
            first
            | (obtain ⟨s1, heq⟩ := hTrS _ hsub; cases heq)
            | (obtain ⟨b2, heq⟩ := askConfirm_trace _ _ _ _ _ heqC _ hsub; simp at heq)
            | simp at hsub
        · split at hrun
          · simp at hrun
          · next res heqR =>
            rw [if_neg (by simp)] at hrun
            split at hrun
            · simp at hrun
            · next r trR heqR2 =>
              obtain ⟨hr, rfl⟩ := askConfirm_ok heqR2
              split at hrun
              · split at hrun
                · simp at hrun
                · dsimp only at hrun
                  split at hrun
                  · simp at hrun
                  · next cmd3 api2 trCfg heqCfg =>
                    split at hrun
                    · simp at hrun
                    · next tx2 trP heqP =>
                      rw [Prod.mk.injEq] at hrun
                      obtain ⟨-, hruntr⟩ := hrun
                      subst hruntr
                      exact ⟨r, by simp⟩
              · simp at hrun
                obtain ⟨rfl, rfl⟩ := hrun
                exact ⟨r, by simp⟩
  · intro cmd2 tr hrun
    constructor
    · intro b0 hmem
      exact send_false_no_repeat cli env fuel cmd api tx b0
        (by simpa [congrArg Prod.snd hrun] using hmem)
    · intro s0 hsub
      rw [send_extrinsic] at hrun
      split at hrun
      · simp at hrun
      · next cmdS trS heqS =>
        have hStr := congrArg Prod.snd heqS
        have hTrS : ∀ x ∈ trS,
            ∃ s1, x = Event.inputPrompt "Who is going to sign the extrinsic:" "//Alice" s1 :=
          fun x hx => resolve_suri_trace cli cmd x (by simpa [hStr] using hx)
        split at hrun
        · simp at hrun
        · next c trC heqC =>
          obtain ⟨hc, rfl⟩ := askConfirm_ok heqC
          split at hrun
          · exfalso
            simp at hrun
            obtain ⟨rfl, rfl⟩ := hrun
            try dsimp only at hsub
            repeat' first
              | (rcases List.mem_append.mp hsub with hsub | hsub)
              | (rcases List.mem_cons.mp hsub with hsub | hsub)
            all_goals
              first
              | (obtain ⟨s1, heq⟩ := hTrS _ hsub; cases heq)
              | (obtain ⟨b2, heq⟩ := askConfirm_trace _ _ _ _ _ heqC _ hsub; simp at heq)
              | simp at hsub
          · split at hrun
            · simp at hrun
            · next res heqR =>
              rw [if_pos rfl] at hrun
              simp at hrun
              obtain ⟨rfl, rfl⟩ := hrun
              simp

theorem claim_C7_witness :
    (∀ b, Event.confirmPrompt "Do you want to perform another call to the same chain?" b
      ∉ (execute cliEcho envT 5 cmdPre).2) ∧
    ∃ tr, send_extrinsic cliEcho envT 5 cmdPre 0 7 true = (Except.ok cmdPre, tr) ∧
      Event.submitAttempt "//Alice" ∈ tr ∧
      ∃ b, Event.confirmPrompt "Do you want to perform another call to the same chain?" b
        ∈ tr := by
  have hrun : send_extrinsic cliEcho envT 5 cmdPre 0 7 true =
      (Except.ok cmdPre,
       [Event.info (display cmdPre),
        Event.confirmPrompt "Do you want to submit the call?" true,
        Event.submitAttempt "//Alice",
        Event.outro "Extrinsic submitted with hash: 0xhash",
        Event.confirmPrompt "Do you want to perform another call to the same chain?" false,
        Event.outro "Parachain calling complete."]) := by
    rw [send_extrinsic]
    simp [resolve_suri, askConfirm, cliEcho, cmdPre, envT]
  refine ⟨(claim_C7 cliEcho envT 5 cmdPre 0 7).1 (by simp [cmdPre]), _, hrun, by simp, ?_⟩
  exact (claim_C7 cliEcho envT 5 cmdPre 0 7).2.1 cmdPre _ hrun "//Alice" (by simp)

/-- Claim C10: the session entry point swallows every stage error: it always
returns `Ok`, and an error from configuration, extrinsic preparation or
submission is reported as a user-visible cancel message in the trace. -/
theorem claim_C10 (cli : Cli) (env : Env) (fuel : Nat) (cmd : CallParachainCommand) :
    (execute cli env fuel cmd).1 = Except.ok () ∧
    (∀ e tr, configure cli env false cmd = (Except.error e, tr) →
      Event.outroCancel e ∈ (execute cli env fuel cmd).2) ∧
    (∀ cmdc api trc e trp, configure cli env false cmd = (Except.ok (cmdc, api), trc) →
      prepare_extrinsic env api cmdc = (Except.error e, trp) →
      Event.outroCancel e ∈ (execute cli env fuel cmd).2) ∧
    (∀ cmdc api trc tx trp e trs, configure cli env false cmd = (Except.ok (cmdc, api), trc) →
      prepare_extrinsic env api cmdc = (Except.ok tx, trp) →
      send_extrinsic cli env fuel cmdc api tx cmd.extrinsic.isNone = (Except.error e, trs) →
      Event.outroCancel e ∈ (execute cli env fuel cmd).2) := by
  refine ⟨?_, ?_, ?_, ?_⟩
  · rcases h1 : configure cli env false cmd with ⟨r1, t1⟩
    cases r1 with
    | error e => simp [execute, h1]
    | ok ca =>
      rcases ca with ⟨cmdc, api⟩
      rcases h2 : prepare_extrinsic env api cmdc with ⟨r2, t2⟩
      cases r2 with
      | error e => simp [execute, h1, h2]
      | ok tx =>
        rcases h3 : send_extrinsic cli env fuel cmdc api tx cmd.extrinsic.isNone with ⟨r3, t3⟩
        cases r3 with
        | error e => simp [execute, h1, h2, h3]
        | ok c2 => simp [execute, h1, h2, h3]
  · intro e tr h1
    simp [execute, h1]
  · intro cmdc api trc e trp h1 h2
    simp [execute, h1, h2]
  · intro cmdc api trc tx trp e trs h1 h2 h3
    simp [execute, h1, h2, h3]

theorem claim_C10_witness :
    (execute cliEcho envDown 5 cmdPre).1 = Except.ok () ∧
    Event.outroCancel "boom" ∈ (execute cliEcho envDown 5 cmdPre).2 := by
  have hcfg : configure cliEcho envDown false cmdPre =
      (Except.error "boom", [Event.intro "Call a parachain"]) := by
    simp [configure, resolve_url, envDown, envT, cmdPre, askInput, cliEcho, DEFAULT_URL]
  exact ⟨(claim_C10 cliEcho envDown 5 cmdPre).1,
    (claim_C10 cliEcho envDown 5 cmdPre).2.1 "boom" [Event.intro "Call a parachain"] hcfg⟩

/-- Counterexample to claim C2 as stated: with the extrinsic name already
pre-supplied on the command line, a successful configure run still shows the
interactive extrinsic selection prompt. -/
theorem claim_C2_cex :
    cmdPre.extrinsic = some "transfer" ∧
    Event.selectPrompt "Select the extrinsic to call:" 0
      ∈ (configure cliEcho envT false cmdPre).2 := by
  refine ⟨rfl, ?_⟩
  simp [configure, resolve_url, resolve_pallet, resolve_args, prompt_argument,
    prompt_argument_value, prompt_for_primitive, askInput, askSelect,
    cliEcho, envT, cmdPre, palletBalances, extTransfer, argAmount, DEFAULT_URL]

/-- Claim C2 (amended): in every successful configuration run the module
selection prompt is shown exactly when the module name was not pre-supplied,
while the operation (extrinsic) selection prompt is always shown, even when
the operation name was pre-supplied on the command line. -/
theorem claim_C2_amended (cli : Cli) (env : Env) (rep : Bool)
    (cmd cmd2 : CallParachainCommand) (api : Api) (tr : List Event)
    (h : configure cli env rep cmd = (Except.ok (cmd2, api), tr)) :
    (∃ i, Event.selectPrompt "Select the extrinsic to call:" i ∈ tr) ∧
    (cmd.pallet = none → ∃ i, Event.selectPrompt "Select the pallet to call:" i ∈ tr) ∧
    (∀ p, cmd.pallet = some p → ∀ i, Event.selectPrompt "Select the pallet to call:" i ∉ tr) := by
  obtain ⟨trUrl, trPallet, trArgs, idxE, htr, hUrlEv, hPalletCase, hArgsEv, -, -⟩ :=
    configure_ok_decomp h
  subst htr
  refine ⟨⟨idxE, by simp⟩, ?_, ?_⟩
  · intro hnone
    rcases hPalletCase with ⟨hne, -⟩ | ⟨-, i, htrp⟩
    · exact absurd hnone hne
    · exact ⟨i, by simp [htrp]⟩
  · intro p hp i hmem
    rcases hPalletCase with ⟨-, htrp⟩ | ⟨hnone, -⟩
    · subst htrp
      try dsimp only at hmem
      repeat' first
        | (rcases List.mem_append.mp hmem with hmem | hmem)
        | (rcases List.mem_cons.mp hmem with hmem | hmem)
      all_goals
        first
        | (exact argEvent_ne_palletSelect (hArgsEv _ hmem) i rfl)
        | (obtain ⟨r, heq⟩ := hUrlEv _ hmem; simp at heq)
        | (split at hmem <;> simp at hmem)
        | simp at hmem
    · rw [hp] at hnone
      cases hnone

theorem claim_C2_witness :
    ∃ tr, configure cliEcho envT false cmdReset =
      (Except.ok (⟨some "Balances", some "transfer", ["99"], "ws://node", "//custom"⟩, 0), tr) ∧
      (∃ i, Event.selectPrompt "Select the extrinsic to call:" i ∈ tr) ∧
      (∃ i, Event.selectPrompt "Select the pallet to call:" i ∈ tr) := by
  have hrun : configure cliEcho envT false cmdReset =
      (Except.ok (⟨some "Balances", some "transfer", ["99"], "ws://node", "//custom"⟩, 0),
       [Event.intro "Call a parachain",
        Event.selectPrompt "Select the pallet to call:" 0,
        Event.selectPrompt "Select the extrinsic to call:" 0,
        Event.inputPrompt "Enter the value for the parameter: amount" "Type required: u128" "99",
        Event.info (display
          ⟨some "Balances", some "transfer", ["99"], "ws://node", "//custom"⟩)]) := by
    simp [configure, resolve_url, resolve_pallet, resolve_args, prompt_argument,
      prompt_argument_value, prompt_for_primitive, askInput, askSelect,
      cliEcho, envT, cmdReset, palletBalances, extTransfer, argAmount, DEFAULT_URL]
  have h := claim_C2_amended cliEcho envT false cmdReset _ 0 _ hrun
  exact ⟨_, hrun, h.1, h.2.1 rfl⟩

/-- Counterexample to claim C3 as stated: with a CLI-positional value ("42")
still available, the resolver nevertheless prompts interactively and the
resolved argument is the prompt response ("99"), not the positional value. -/
theorem claim_C3_cex :
    cmdPre.args = ["42"] ∧
    okArgs (configure cliEcho envT false cmdPre) = some ["99"] ∧
    Event.inputPrompt "Enter the value for the parameter: amount" "Type required: u128" "99"
      ∈ (configure cliEcho envT false cmdPre).2 := by
  refine ⟨rfl, ?_, ?_⟩ <;>
    simp [okArgs, configure, resolve_url, resolve_pallet, resolve_args, prompt_argument,
      prompt_argument_value, prompt_for_primitive, askInput, askSelect,
      cliEcho, envT, cmdPre, palletBalances, extTransfer, argAmount, DEFAULT_URL]

theorem resolve_url_congr (cli : Cli) (env : Env) (rep : Bool)
    {c d : CallParachainCommand} (h : EqExceptArgs c d) :
    (resolve_url cli env rep c).2 = (resolve_url cli env rep d).2 ∧
    ((∃ e, (resolve_url cli env rep c).1 = Except.error e ∧
       (resolve_url cli env rep d).1 = Except.error e) ∨
     (∃ c1 d1, (resolve_url cli env rep c).1 = Except.ok c1 ∧
       (resolve_url cli env rep d).1 = Except.ok d1 ∧ EqExceptArgs c1 d1 ∧
       c1.args = c.args ∧ d1.args = d.args)) := by
  obtain ⟨hp, he, hu, hs⟩ := h
  unfold resolve_url
  rw [hu]
  by_cases hc : rep = false ∧ d.url = DEFAULT_URL
  · rw [if_pos hc, if_pos hc]
    rcases hin : cli.input "Which chain would you like to interact with?"
        "wss://rpc1.paseo.popnetwork.xyz" "wss://rpc1.paseo.popnetwork.xyz" with _ | u
    · simp [askInput, hin]
    · rcases hpu : env.parse_url u with e | parsed
      · simp [askInput, hin, hpu]
      · refine ⟨by simp [askInput, hin, hpu], Or.inr
          ⟨{ c with url := parsed }, { d with url := parsed },
           by simp [askInput, hin, hpu], by simp [askInput, hin, hpu],
           ⟨by simpa using hp, by simpa using he, by simp, by simpa using hs⟩,
           rfl, rfl⟩⟩
  · rw [if_neg hc, if_neg hc]
    exact ⟨rfl, Or.inr ⟨c, d, rfl, rfl, ⟨hp, he, hu, hs⟩, rfl, rfl⟩⟩

theorem resolve_pallet_congr (cli : Cli) (env : Env) (api : Api) (pallets : List Pallet)
    {c d : CallParachainCommand} (h : EqExceptArgs c d) :
    (resolve_pallet cli env api pallets c).2 = (resolve_pallet cli env api pallets d).2 ∧
    ((∃ e, (resolve_pallet cli env api pallets c).1 = Except.error e ∧
       (resolve_pallet cli env api pallets d).1 = Except.error e) ∨
     (∃ p c1 d1, (resolve_pallet cli env api pallets c).1 = Except.ok (p, c1) ∧
       (resolve_pallet cli env api pallets d).1 = Except.ok (p, d1) ∧ EqExceptArgs c1 d1 ∧
       c1.args = c.args ∧ d1.args = d.args)) := by
  obtain ⟨hp, he, hu, hs⟩ := h
  unfold resolve_pallet
  rw [hp]
  rcases hd : d.pallet with _ | name
  · rcases hsel : cli.select "Select the pallet to call:"
        (pallets.map fun p => (p.name, p.docs)) with _ | idx
    · simp [askSelect, hsel]
    · rcases hget : pallets[idx]? with _ | p
      · simp [askSelect, hsel, hget]
      · refine ⟨by simp [askSelect, hsel, hget], Or.inr
          ⟨p, { c with pallet := some p.name }, { d with pallet := some p.name },
           by simp [askSelect, hsel, hget], by simp [askSelect, hsel, hget],
           ⟨by simp, by simpa using he, by simpa using hu, by simpa using hs⟩,
           rfl, rfl⟩⟩
  · rcases hf : env.find_pallet_by_name api name with e | p
    · simp [hf]
    · exact ⟨by simp [hf], Or.inr ⟨p, c, d, by simp [hf], by simp [hf],
        ⟨by rw [hp, hd], he, hu, hs⟩, rfl, rfl⟩⟩

/-- `configure` never reads the pre-supplied positional argument list: two
states differing only in `args` configure identically. -/
theorem configure_args_congr (cli : Cli) (env : Env) (rep : Bool)
    {c d : CallParachainCommand} (h : EqExceptArgs c d) :
    configure cli env rep c = configure cli env rep d := by
  obtain ⟨hT, hres⟩ := resolve_url_congr cli env rep h
  rcases hu1 : resolve_url cli env rep c with ⟨r1, t1⟩
  rcases hu2 : resolve_url cli env rep d with ⟨r2, t2⟩
  have ht12 : t1 = t2 := by
    rw [hu1, hu2] at hT
    exact hT
  subst ht12
  simp only [configure]
  rw [hu1, hu2]
  rcases hres with ⟨e, he1, he2⟩ | ⟨c1, d1, hok1, hok2, h1, hac, had⟩
  · rw [hu1] at he1
    rw [hu2] at he2
    simp at he1 he2
    subst he1
    subst he2
    rfl
  · rw [hu1] at hok1
    rw [hu2] at hok2
    simp at hok1 hok2
    subst hok1
    subst hok2
    obtain ⟨hp1, he1, hu1f, hs1⟩ := h1
    dsimp only
    rw [hu1f]
    rcases hapi : env.set_up_api d1.url with e | api
    · rfl
    · dsimp only
      rcases hmeta : env.parse_chain_metadata api with e | pallets
      · rfl
      · dsimp only
        obtain ⟨hT2, hres2⟩ := resolve_pallet_congr cli env api pallets
            ⟨hp1, he1, hu1f, hs1⟩
        rcases hq1 : resolve_pallet cli env api pallets c1 with ⟨q1, u1⟩
        rcases hq2 : resolve_pallet cli env api pallets d1 with ⟨q2, u2⟩
        have hu12 : u1 = u2 := by
          rw [hq1, hq2] at hT2
          exact hT2
        subst hu12
        rcases hres2 with ⟨e, hqe1, hqe2⟩ | ⟨p, c2, d2, hqo1, hqo2, h2, hac2, had2⟩
        · rw [hq1] at hqe1
          rw [hq2] at hqe2
          simp at hqe1 hqe2
          subst hqe1
          subst hqe2
          rfl
        · rw [hq1] at hqo1
          rw [hq2] at hqo2
          simp at hqo1 hqo2
          subst hqo1
          subst hqo2
          obtain ⟨hp2, he2, hu2f, hs2⟩ := h2
          dsimp only
          rcases hsel : cli.select "Select the extrinsic to call:"
              (p.extrinsics.map fun ex => (ex.name, String.join ex.docs)) with _ | idx
          · simp [askSelect, hsel]
          · simp only [askSelect, hsel]
            rcases hget : p.extrinsics.get? idx with _ | ext
            · simp [hget]
            · rcases hargs : resolve_args cli env api ext.fields with ⟨ra, ta⟩
              cases ra with
              | error e => simp [hget, hargs]
              | ok vs =>
                simp only [hget, hargs]
                rw [hp2, hu2f, hs2]

/-- Claim C3 (amended): a primitive descriptor is always resolved through the
interactive free-text prompt, whose placeholder is seeded with the type
label; the CLI-positional value list plays no role in resolution — `configure`
behaves identically whatever pre-supplied positional values it starts with. -/
theorem claim_C3_amended :
    (∀ (cli : Cli) (arg : Arg) (v : String),
      cli.input ("Enter the value for the parameter: " ++ arg.name)
        ("Type required: " ++ arg.type_input) "" = some v →
      prompt_for_primitive cli arg = (Except.ok v,
        [Event.inputPrompt ("Enter the value for the parameter: " ++ arg.name)
          ("Type required: " ++ arg.type_input) v])) ∧
    (∀ (cli : Cli) (env : Env) (rep : Bool) (cmd : CallParachainCommand)
        (a1 a2 : List String),
      configure cli env rep { cmd with args := a1 } =
        configure cli env rep { cmd with args := a2 }) := by
  constructor
  · intro cli arg v hin
    simp [prompt_for_primitive, askInput, hin]
  · intro cli env rep cmd a1 a2
    exact configure_args_congr cli env rep ⟨rfl, rfl, rfl, rfl⟩

theorem claim_C3_witness :
    prompt_for_primitive cliEcho argAmount = (Except.ok "99",
      [Event.inputPrompt "Enter the value for the parameter: amount" "Type required: u128"
        "99"]) ∧
    configure cliEcho envT false { cmdPre with args := ["42"] } =
      configure cliEcho envT false { cmdPre with args := [] } := by
  constructor
  · have h := claim_C3_amended.1 cliEcho argAmount "99" rfl
    simpa [argAmount] using h
  · exact claim_C3_amended.2 cliEcho envT false cmdPre ["42"] []

end PopCli
